import Mathlib

/-!
Verification of `elcellomata.py`, a visualizer for elementary cellular
automata.  The Python program is shallowly embedded below: the `transition`
function (with its `assert len(rules) == 8` and its `ValueError` on invalid
configurations) becomes a function into `Except`, the rule-table construction
`bin(rule)[2:].zfill(8)` becomes `RULES`, the generation sweep becomes
`genGrid`, and the two rendering decision procedures (vertical-line drawing and
the one-neighbor marker pass) become Boolean predicates on the finished grid.
-/

namespace Elcellomata

/-- Failure modes of `transition`: the `assert len(rules) == 8` statement, and
the `ValueError` raised on a configuration that matches none of the 8 valid
triples (it records the offending configuration, as the Python message does). -/
inductive TransitionFailure where
  | assertionFailed : TransitionFailure
  | invalidConfiguration : List Nat → TransitionFailure
deriving DecidableEq, Repr

/-- Embedding of `transition(config, rules)`: first the assertion
`len(rules) == 8`, then the if/elif chain over the 8 neighbor triples,
finally `raise ValueError` for anything else. -/
def transition (config rules : List Nat) : Except TransitionFailure Nat :=
  if rules.length = 8 then
    if config = [1, 1, 1] then .ok (rules.getD 0 0)
    else if config = [1, 1, 0] then .ok (rules.getD 1 0)
    else if config = [1, 0, 1] then .ok (rules.getD 2 0)
    else if config = [1, 0, 0] then .ok (rules.getD 3 0)
    else if config = [0, 1, 1] then .ok (rules.getD 4 0)
    else if config = [0, 1, 0] then .ok (rules.getD 5 0)
    else if config = [0, 0, 1] then .ok (rules.getD 6 0)
    else if config = [0, 0, 0] then .ok (rules.getD 7 0)
    else .error (.invalidConfiguration config)
  else .error .assertionFailed

/-- Big-endian binary digits of `n` with explicit fuel (each step halves `n`,
so fuel `n` is enough for every `n ≥ 1`); mirrors Python's `bin(n)[2:]`
except that `binDigitsAux` returns `[]` for `n = 0` where `bin` gives "0". -/
def binDigitsAux : Nat → Nat → List Nat
  | 0, _ => []
  | _, 0 => []
  | fuel + 1, n + 1 => binDigitsAux fuel ((n + 1) / 2) ++ [(n + 1) % 2]

/-- Big-endian binary digits of `n` (empty for `n = 0`). -/
def binDigits (n : Nat) : List Nat :=
  binDigitsAux n n

/-- Python's `str.zfill(8)` on a digit list: left-pad with zeros to length 8
(lists already at least 8 long are returned unchanged). -/
def zfill8 (l : List Nat) : List Nat :=
  List.replicate (8 - l.length) 0 ++ l

/-- Embedding of `RULES = [int(c) for c in bin(args.rule)[2:].zfill(8)]`.
`bin(0)[2:]` is the one-character string "0", hence the `rule = 0` case. -/
def RULES (rule : Nat) : List Nat :=
  zfill8 (if rule = 0 then [0] else binDigits rule)

/-- The big-endian 8-bit binary expansion of `r`, most significant bit first,
written directly as bit extractions (the spec's description of the table). -/
def bigEndianBits8 (r : Nat) : List Nat :=
  [r / 128 % 2, r / 64 % 2, r / 32 % 2, r / 16 % 2,
   r / 8 % 2, r / 4 % 2, r / 2 % 2, r % 2]

/-- The neighbor configuration the generation loop passes to `transition` for
column `j` of row `row`:
`[grid[i][-1], *grid[i][0:j+2]]` at `j == 0`,
`[*grid[i][j-1:], grid[i][0]]` at `j == len-1`, and
the slice `grid[i][j-1:j+2]` otherwise. -/
def neighborConfig (row : List Nat) (j : Nat) : List Nat :=
  if j = 0 then
    row.getD (row.length - 1) 0 :: row.take (j + 2)
  else if j = row.length - 1 then
    row.drop (j - 1) ++ [row.getD 0 0]
  else
    (row.drop (j - 1)).take (j + 2 - (j - 1))

/-- The inner loop of the generation sweep: apply `transition` to the neighbor
configuration of each listed column, stopping at the first failure. -/
def mapTransitions (rules row : List Nat) : List Nat → Except TransitionFailure (List Nat)
  | [] => .ok []
  | j :: js =>
    match transition (neighborConfig row j) rules with
    | .error e => .error e
    | .ok v =>
      match mapTransitions rules row js with
      | .error e => .error e
      | .ok vs => .ok (v :: vs)

/-- One generation step: row `i+1` as computed from row `i` by the sweep
(`for j in range(len(grid[i]))`). -/
def nextRow (rules row : List Nat) : Except TransitionFailure (List Nat) :=
  mapTransitions rules row (List.range row.length)

/-- The rows strictly below `row` produced by `n` further generation steps. -/
def iterRows (rules : List Nat) : List Nat → Nat → Except TransitionFailure (List (List Nat))
  | _, 0 => .ok []
  | row, n + 1 =>
    match nextRow rules row with
    | .error e => .error e
    | .ok next =>
      match iterRows rules next n with
      | .error e => .error e
      | .ok rest => .ok (next :: rest)

/-- The full grid of `height` rows grown from the initial row, as built by
`for i in range(len(grid) - 1)` over a `height`-row grid. -/
def genGrid (rules row0 : List Nat) (height : Nat) : Except TransitionFailure (List (List Nat)) :=
  match iterRows rules row0 (height - 1) with
  | .error e => .error e
  | .ok rest => .ok (row0 :: rest)

/-- The eight valid neighbor triples, in the order of the if/elif chain. -/
def validConfigs : List (List Nat) :=
  [[1, 1, 1], [1, 1, 0], [1, 0, 1], [1, 0, 0],
   [0, 1, 1], [0, 1, 0], [0, 0, 1], [0, 0, 0]]


/-- The direct-indexing form of the transition: the rule-table entry at the
3-bit binary value of the configuration, counted from the table's end. -/
def transitionVal (cfg rules : List Nat) : Nat :=
  rules.getD (7 - (4 * cfg.getD 0 0 + 2 * cfg.getD 1 0 + cfg.getD 2 0)) 0

/-- The values of row `i+1` as a pure function of row `i` and the table. -/
def nextRowVals (rules row : List Nat) : List Nat :=
  (List.range row.length).map (fun j => transitionVal (neighborConfig row j) rules)

/-- Whether the drawing pass draws the vertical line from node `(i, j)` to node
`(i + 1, j)`: the guard `if not grid[i+1][j]: continue` followed by
`if grid[i][j]:`. -/
def drawsVerticalLine (grid : List (List Nat)) (i j : Nat) : Bool :=
  ((grid.getD (i + 1) []).getD j 0 != 0) && ((grid.getD i []).getD j 0 != 0)

/-- `sum(grid[r][start_slice:stop_slice])` with `start_slice = max(0, j - 1)`
and `stop_slice = min(j + 2, len(grid[i]))` (the current row `i` supplies the
length used to clamp, exactly as in the marker pass). -/
def windowSliceSum (grid : List (List Nat)) (r i j : Nat) : Nat :=
  (((grid.getD r []).drop (j - 1)).take
    (min (j + 2) (grid.getD i []).length - (j - 1))).sum

/-- Whether the marker pass draws a filled circle at cell `(i, j)`: the cell is
live and the window sum over row `i+1` (when `i == 0`), over row `i-1` (when
`i` is the last row), or over both adjacent rows summed, equals exactly 1. -/
def markerAt (grid : List (List Nat)) (i j : Nat) : Bool :=
  if (grid.getD i []).getD j 0 = 0 then false
  else if i = 0 then windowSliceSum grid (i + 1) i j == 1
  else if i = grid.length - 1 then windowSliceSum grid (i - 1) i j == 1
  else windowSliceSum grid (i - 1) i j + windowSliceSum grid (i + 1) i j == 1

/-- Modelled from the spec: "the number of live cells in the window
`[max(0, j-1), min(j+2, width))`" of a row, written as a count over cell
indices rather than as the code's slice sum. -/
def liveCellsInWindow (rowL : List Nat) (j : Nat) : Nat :=
  ((List.range rowL.length).filter
    (fun k => decide (j - 1 ≤ k) && decide (k < min (j + 2) rowL.length)
      && decide (rowL.getD k 0 = 1))).length

/-- Modelled from the spec: the live count in the adjacent row(s) of cell
`(i, j)` — row `i+1` only when `i == 0`, row `i-1` only when `i` is the last
row, and the sum over both rows otherwise. -/
def adjacentLiveCount (grid : List (List Nat)) (i j : Nat) : Nat :=
  if i = 0 then liveCellsInWindow (grid.getD (i + 1) []) j
  else if i = grid.length - 1 then liveCellsInWindow (grid.getD (i - 1) []) j
  else liveCellsInWindow (grid.getD (i - 1) []) j
    + liveCellsInWindow (grid.getD (i + 1) []) j


lemma getD_zero_or_one {l : List Nat} (h : ∀ x ∈ l, x = 0 ∨ x = 1) (n : Nat) :
    l.getD n 0 = 0 ∨ l.getD n 0 = 1 := by
  by_cases hn : n < l.length
  · rw [List.getD_eq_getElem l 0 hn]
    exact h _ (List.getElem_mem hn)
  · rw [List.getD_eq_default l 0 (Nat.le_of_not_lt hn)]
    exact Or.inl rfl

lemma transition_eq_getD {a b c : Nat} {rules : List Nat} (hr : rules.length = 8)
    (ha : a = 0 ∨ a = 1) (hb : b = 0 ∨ b = 1) (hc : c = 0 ∨ c = 1) :
    transition [a, b, c] rules = .ok (rules.getD (7 - (4 * a + 2 * b + c)) 0) := by
  rcases ha with rfl | rfl <;> rcases hb with rfl | rfl <;> rcases hc with rfl | rfl <;>
    simp [transition, hr]

lemma drop_pair {α : Type} {l : List α} {n : Nat} (h : n + 2 = l.length) (d : α) :
    l.drop n = [l.getD n d, l.getD (n + 1) d] := by
  rw [List.drop_eq_getElem_cons (by omega), List.drop_eq_getElem_cons (by omega),
      List.drop_eq_nil_of_le (by omega),
      List.getD_eq_getElem l d (by omega), List.getD_eq_getElem l d (by omega)]

lemma drop_take_three {α : Type} {l : List α} {n : Nat} (h : n + 3 ≤ l.length) (d : α) :
    (l.drop n).take 3 = [l.getD n d, l.getD (n + 1) d, l.getD (n + 2) d] := by
  rw [List.getD_eq_getElem l d (by omega : n < l.length),
      List.getD_eq_getElem l d (by omega : n + 1 < l.length),
      List.getD_eq_getElem l d (by omega : n + 2 < l.length),
      List.drop_eq_getElem_cons (by omega), List.drop_eq_getElem_cons (by omega),
      List.drop_eq_getElem_cons (by omega)]
  rfl

lemma neighborConfig_eq {row : List Nat} (hw : 2 ≤ row.length) {j : Nat} (hj : j < row.length) :
    neighborConfig row j =
      [row.getD ((j + row.length - 1) % row.length) 0, row.getD j 0,
       row.getD ((j + 1) % row.length) 0] := by
  rcases Nat.eq_zero_or_pos j with rfl | hpos
  · have h1 : (0 + row.length - 1) % row.length = row.length - 1 := by
      have h : 0 + row.length - 1 = row.length - 1 := by omega
      rw [h]
      exact Nat.mod_eq_of_lt (by omega)
    have h2 : (0 + 1) % row.length = 1 := Nat.mod_eq_of_lt (by omega)
    rcases row with _ | ⟨a, _ | ⟨b, t⟩⟩ <;> simp at hw
    simp [neighborConfig, h1, h2]
  · by_cases hlast : j = row.length - 1
    · have hne : j ≠ 0 := by omega
      have h1 : (j + row.length - 1) % row.length = j - 1 := by
        have h : j + row.length - 1 = row.length + (j - 1) := by omega
        rw [h, Nat.add_mod_left]
        exact Nat.mod_eq_of_lt (by omega)
      have h2 : (j + 1) % row.length = 0 := by
        have h : j + 1 = row.length := by omega
        rw [h, Nat.mod_self]
      rw [neighborConfig, if_neg hne, if_pos hlast, h1, h2,
          drop_pair (by omega) 0]
      have h3 : j - 1 + 1 = j := by omega
      rw [h3]
      rfl
    · have hne : j ≠ 0 := by omega
      have h1 : (j + row.length - 1) % row.length = j - 1 := by
        have h : j + row.length - 1 = row.length + (j - 1) := by omega
        rw [h, Nat.add_mod_left]
        exact Nat.mod_eq_of_lt (by omega)
      have h2 : (j + 1) % row.length = j + 1 := Nat.mod_eq_of_lt (by omega)
      have h3 : j + 2 - (j - 1) = 3 := by omega
      rw [neighborConfig, if_neg hne, if_neg hlast, h1, h2, h3,
          drop_take_three (by omega) 0]
      have e1 : j - 1 + 1 = j := by omega
      have e2 : j - 1 + 2 = j + 1 := by omega
      rw [e1, e2]


lemma mapTransitions_ok_map {rules row : List Nat} (g : Nat → Nat) :
    ∀ {js : List Nat}, (∀ j ∈ js, transition (neighborConfig row j) rules = .ok (g j)) →
      mapTransitions rules row js = .ok (js.map g) := by
  intro js
  induction js with
  | nil => intro _; rfl
  | cons j js ih =>
    intro h
    have hj := h j (by simp)
    have hrest := ih (fun x hx => h x (by simp [hx]))
    simp [mapTransitions, hj, hrest]

lemma transition_neighborConfig_ok {rules row : List Nat} (hr : rules.length = 8)
    (hb : ∀ x ∈ row, x = 0 ∨ x = 1) (hw : 2 ≤ row.length) {j : Nat} (hj : j < row.length) :
    transition (neighborConfig row j) rules
      = .ok (transitionVal (neighborConfig row j) rules) := by
  rw [neighborConfig_eq hw hj,
      transition_eq_getD hr (getD_zero_or_one hb _) (getD_zero_or_one hb _)
        (getD_zero_or_one hb _)]
  rfl

lemma nextRow_ok {rules row : List Nat} (hr : rules.length = 8)
    (hb : ∀ x ∈ row, x = 0 ∨ x = 1) (hw : 2 ≤ row.length) :
    nextRow rules row = .ok (nextRowVals rules row) :=
  mapTransitions_ok_map _
    (fun _ hj => transition_neighborConfig_ok hr hb hw (List.mem_range.mp hj))

lemma nextRowVals_length {rules row : List Nat} :
    (nextRowVals rules row).length = row.length := by
  simp [nextRowVals]

lemma nextRowVals_binary {rules row : List Nat} (hrb : ∀ x ∈ rules, x = 0 ∨ x = 1) :
    ∀ x ∈ nextRowVals rules row, x = 0 ∨ x = 1 := by
  intro x hx
  simp only [nextRowVals, List.mem_map] at hx
  obtain ⟨j, -, rfl⟩ := hx
  exact getD_zero_or_one hrb _

lemma nextRowVals_getD {rules row : List Nat} {j : Nat} (hj : j < row.length) :
    (nextRowVals rules row).getD j 0 = transitionVal (neighborConfig row j) rules := by
  rw [List.getD_eq_getElem _ _ (by simpa [nextRowVals] using hj)]
  simp [nextRowVals]

lemma iterRows_spec {rules : List Nat} (hr : rules.length = 8)
    (hrb : ∀ x ∈ rules, x = 0 ∨ x = 1) :
    ∀ (n : Nat) (row : List Nat), (∀ x ∈ row, x = 0 ∨ x = 1) → 2 ≤ row.length →
      ∃ rest, iterRows rules row n = .ok rest ∧ rest.length = n ∧
        (∀ q ∈ rest, (∀ x ∈ q, x = 0 ∨ x = 1) ∧ q.length = row.length) ∧
        (∀ i, i + 1 < (row :: rest).length →
          nextRow rules ((row :: rest).getD i []) = .ok ((row :: rest).getD (i + 1) [])) := by
  intro n
  induction n with
  | zero =>
    intro row hb hw
    exact ⟨[], rfl, rfl, by simp, fun i hi => by simp at hi⟩
  | succ n ih =>
    intro row hb hw
    have hnext : nextRow rules row = .ok (nextRowVals rules row) := nextRow_ok hr hb hw
    have hbn : ∀ x ∈ nextRowVals rules row, x = 0 ∨ x = 1 := nextRowVals_binary hrb
    have hwn : 2 ≤ (nextRowVals rules row).length := by rw [nextRowVals_length]; exact hw
    obtain ⟨rest, hiter, hlen, hq, hchain⟩ := ih (nextRowVals rules row) hbn hwn
    refine ⟨nextRowVals rules row :: rest, ?_, ?_, ?_, ?_⟩
    · simp only [iterRows, hnext, hiter]
    · simp [hlen]
    · intro q hq2
      rcases List.mem_cons.mp hq2 with rfl | hmem
      · exact ⟨hbn, nextRowVals_length⟩
      · obtain ⟨hqb, hql⟩ := hq q hmem
        exact ⟨hqb, by rw [hql, nextRowVals_length]⟩
    · intro i hi
      match i with
      | 0 => simpa using hnext
      | i + 1 =>
        have := hchain i (by simpa using hi)
        simpa using this

lemma genGrid_spec {rules row0 : List Nat} (hr : rules.length = 8)
    (hrb : ∀ x ∈ rules, x = 0 ∨ x = 1) (hb : ∀ x ∈ row0, x = 0 ∨ x = 1)
    (hw : 2 ≤ row0.length) (height : Nat) :
    ∃ g, genGrid rules row0 height = .ok g ∧ g.length = height - 1 + 1 ∧
      g.getD 0 [] = row0 ∧
      (∀ q ∈ g, (∀ x ∈ q, x = 0 ∨ x = 1) ∧ q.length = row0.length) ∧
      (∀ i, i + 1 < g.length →
        nextRow rules (g.getD i []) = .ok (g.getD (i + 1) [])) := by
  obtain ⟨rest, hiter, hlen, hq, hchain⟩ := iterRows_spec hr hrb (height - 1) row0 hb hw
  refine ⟨row0 :: rest, ?_, ?_, rfl, ?_, hchain⟩
  · simp only [genGrid, hiter]
  · simp [hlen]
  · intro q hq2
    rcases List.mem_cons.mp hq2 with rfl | hmem
    · exact ⟨hb, rfl⟩
    · exact hq q hmem


lemma slice_sum_eq_filter_length :
    ∀ (l : List Nat), (∀ x ∈ l, x = 0 ∨ x = 1) → ∀ (s t : Nat),
      ((l.drop s).take (t - s)).sum
        = ((List.range l.length).filter
            (fun k => decide (s ≤ k) && decide (k < t)
              && decide (l.getD k 0 = 1))).length := by
  intro l
  induction l with
  | nil => intro _ s t; simp
  | cons x xs ih =>
    intro hb s t
    have hbx : x = 0 ∨ x = 1 := hb x (by simp)
    have hbxs : ∀ y ∈ xs, y = 0 ∨ y = 1 := fun y hy => hb y (by simp [hy])
    rw [List.length_cons, List.range_succ_eq_map]
    cases s with
    | zero =>
      cases t with
      | zero =>
        have hemp : List.filter
            (fun k => decide (0 ≤ k) && decide (k < 0) && decide ((x :: xs).getD k 0 = 1))
            (0 :: List.map Nat.succ (List.range xs.length)) = [] := by
          rw [List.filter_eq_nil_iff]
          intro a ha
          simp
        rw [hemp]
        simp
      | succ u =>
        have hmap : List.filter
            (fun k => decide (0 ≤ k) && decide (k < u + 1) && decide ((x :: xs).getD k 0 = 1))
            (List.map Nat.succ (List.range xs.length))
            = List.map Nat.succ (List.filter
                (fun k => decide (0 ≤ k) && decide (k < u) && decide (xs.getD k 0 = 1))
                (List.range xs.length)) := by
          rw [List.filter_map]
          congr 1
          apply List.filter_congr
          intro a ha
          simp only [Function.comp_apply]
          have e1 : decide ((0 : Nat) ≤ Nat.succ a) = decide ((0 : Nat) ≤ a) := by
            rw [decide_eq_decide]
            omega
          have e2 : decide (Nat.succ a < u + 1) = decide (a < u) := by
            rw [decide_eq_decide]
            omega
          have e3 : (x :: xs).getD (Nat.succ a) 0 = xs.getD a 0 := rfl
          rw [e1, e2, e3]
        have hIH := ih hbxs 0 u
        rw [List.drop_zero, Nat.sub_zero] at hIH
        rw [List.drop_zero, Nat.sub_zero, List.take_succ_cons, List.sum_cons, List.filter_cons]
        rcases hbx with rfl | rfl
        · have hcond : (decide ((0 : Nat) ≤ 0) && decide ((0 : Nat) < u + 1)
              && decide (((0 : Nat) :: xs).getD 0 0 = 1)) = false := by simp
          rw [hcond]
          simp only [Bool.false_eq_true, if_false, hmap, List.length_map]
          rw [hIH]
          omega
        · have hcond : (decide ((0 : Nat) ≤ 0) && decide ((0 : Nat) < u + 1)
              && decide (((1 : Nat) :: xs).getD 0 0 = 1)) = true := by simp
          rw [hcond]
          simp only [if_true, hmap, List.length_cons, List.length_map]
          rw [hIH]
          omega
    | succ s' =>
      have hmap : List.filter
          (fun k => decide (s' + 1 ≤ k) && decide (k < t) && decide ((x :: xs).getD k 0 = 1))
          (List.map Nat.succ (List.range xs.length))
          = List.map Nat.succ (List.filter
              (fun k => decide (s' ≤ k) && decide (k < t - 1) && decide (xs.getD k 0 = 1))
              (List.range xs.length)) := by
        rw [List.filter_map]
        congr 1
        apply List.filter_congr
        intro a ha
        simp only [Function.comp_apply]
        have e1 : decide (s' + 1 ≤ Nat.succ a) = decide (s' ≤ a) := by
          rw [decide_eq_decide]
          omega
        have e2 : decide (Nat.succ a < t) = decide (a < t - 1) := by
          rw [decide_eq_decide]
          omega
        have e3 : (x :: xs).getD (Nat.succ a) 0 = xs.getD a 0 := rfl
        rw [e1, e2, e3]
      have hIH := ih hbxs s' (t - 1)
      have hdrop : (x :: xs).drop (s' + 1) = xs.drop s' := rfl
      have hsub : t - (s' + 1) = t - 1 - s' := by omega
      have hcond : (decide (s' + 1 ≤ 0) && decide ((0 : Nat) < t)
          && decide ((x :: xs).getD 0 0 = 1)) = false := by simp
      rw [hdrop, hsub, hIH, List.filter_cons, hcond]
      simp only [Bool.false_eq_true, if_false, hmap, List.length_map]


set_option maxRecDepth 10000 in
lemma RULES_facts : ∀ r < 256, (RULES r).length = 8 ∧ (∀ x ∈ RULES r, x = 0 ∨ x = 1)
    ∧ RULES r = bigEndianBits8 r := by decide

lemma getD_mem {α : Type} {l : List α} {n : Nat} (h : n < l.length) (d : α) :
    l.getD n d ∈ l := by
  rw [List.getD_eq_getElem l d h]
  exact List.getElem_mem h

lemma row_getD_binary {grid : List (List Nat)}
    (hb : ∀ q ∈ grid, ∀ x ∈ q, x = 0 ∨ x = 1) (r : Nat) :
    ∀ x ∈ grid.getD r [], x = 0 ∨ x = 1 := by
  by_cases h : r < grid.length
  · exact hb _ (getD_mem h [])
  · rw [List.getD_eq_default _ _ (Nat.le_of_not_lt h)]
    intro x hx
    simp at hx

lemma transition_rule170 {a b c : Nat} (ha : a = 0 ∨ a = 1) (hb : b = 0 ∨ b = 1)
    (hc : c = 0 ∨ c = 1) : transition [a, b, c] (RULES 170) = .ok c := by
  rcases ha with rfl | rfl <;> rcases hb with rfl | rfl <;> rcases hc with rfl | rfl <;> rfl

lemma windowSliceSum_eq_liveCells {grid : List (List Nat)} {r i j : Nat}
    (hbr : ∀ x ∈ grid.getD r [], x = 0 ∨ x = 1)
    (hlen : (grid.getD r []).length = (grid.getD i []).length) :
    windowSliceSum grid r i j = liveCellsInWindow (grid.getD r []) j := by
  rw [windowSliceSum, liveCellsInWindow,
      slice_sum_eq_filter_length _ hbr (j - 1) (min (j + 2) (grid.getD i []).length), hlen]


lemma markerAt_iff {grid : List (List Nat)} {i j : Nat}
    (hb : ∀ q ∈ grid, ∀ x ∈ q, x = 0 ∨ x = 1)
    (hrect : ∀ q ∈ grid, q.length = (grid.getD 0 []).length)
    (hh : 2 ≤ grid.length) (hi : i < grid.length) :
    markerAt grid i j = true ↔
      ((grid.getD i []).getD j 0 = 1 ∧ adjacentLiveCount grid i j = 1) := by
  have hlen : ∀ r, r < grid.length →
      (grid.getD r []).length = (grid.getD i []).length := by
    intro r hr
    rw [hrect _ (getD_mem hr []), hrect _ (getD_mem hi [])]
  by_cases hc : (grid.getD i []).getD j 0 = 0
  · rw [markerAt, if_pos hc, hc]
    simp
  · have hc1 : (grid.getD i []).getD j 0 = 1 :=
      (getD_zero_or_one (row_getD_binary hb i) j).resolve_left hc
    rw [markerAt, if_neg hc, adjacentLiveCount]
    by_cases hi0 : i = 0
    · subst hi0
      rw [if_pos rfl, if_pos rfl,
          windowSliceSum_eq_liveCells (row_getD_binary hb 1) (hlen 1 (by omega))]
      simp [hc1]
      exact fun _ => by simpa using hc1
    · by_cases hilast : i = grid.length - 1
      · rw [if_neg hi0, if_pos hilast, if_neg hi0, if_pos hilast,
            windowSliceSum_eq_liveCells (row_getD_binary hb (i - 1))
              (hlen (i - 1) (by omega))]
        simp [hc1]
        exact fun _ => by simpa using hc1
      · rw [if_neg hi0, if_neg hilast, if_neg hi0, if_neg hilast,
            windowSliceSum_eq_liveCells (row_getD_binary hb (i - 1))
              (hlen (i - 1) (by omega)),
            windowSliceSum_eq_liveCells (row_getD_binary hb (i + 1))
              (hlen (i + 1) (by omega))]
        simp [hc1]
        exact fun _ => by simpa using hc1


/-- C1: for every configuration `[a, b, c]` with entries in {0, 1} and every
8-entry rule table, `transition` returns the table entry at the index
`7 - (4a + 2b + c)` given by the stated mapping — the if/elif chain is
behaviorally identical to direct indexing by the 3-bit binary value. -/
theorem claim_C1_transition_direct_index {a b c : Nat} {rules : List Nat}
    (hr : rules.length = 8) (ha : a = 0 ∨ a = 1) (hb : b = 0 ∨ b = 1)
    (hc : c = 0 ∨ c = 1) :
    transition [a, b, c] rules = .ok (rules.getD (7 - (4 * a + 2 * b + c)) 0) :=
  transition_eq_getD hr ha hb hc

/-- Witness for C1: configuration `(1, 0, 1)` against the table
`[0, 1, 2, 3, 4, 5, 6, 7]` returns the entry at index 2. -/
theorem claim_C1_witness :
    transition [1, 0, 1] [0, 1, 2, 3, 4, 5, 6, 7]
      = .ok (([0, 1, 2, 3, 4, 5, 6, 7] : List Nat).getD (7 - (4 * 1 + 2 * 0 + 1)) 0) :=
  claim_C1_transition_direct_index rfl (Or.inr rfl) (Or.inl rfl) (Or.inr rfl)

/-- C2: for every row of width at least 2, the generation loop's neighbor
configuration of column 0 is (last, first, second) and of the last column is
(second-to-last, last, first) — ring indexing at both edges. -/
theorem claim_C2_ring_wraparound {row : List Nat} (hw : 2 ≤ row.length) :
    neighborConfig row 0
      = [row.getD (row.length - 1) 0, row.getD 0 0, row.getD 1 0] ∧
    neighborConfig row (row.length - 1)
      = [row.getD (row.length - 2) 0, row.getD (row.length - 1) 0, row.getD 0 0] := by
  constructor
  · have e1 : (0 + row.length - 1) % row.length = row.length - 1 := by
      have h : 0 + row.length - 1 = row.length - 1 := by omega
      rw [h]
      exact Nat.mod_eq_of_lt (by omega)
    have e2 : (0 + 1) % row.length = 1 := Nat.mod_eq_of_lt (by omega)
    rw [neighborConfig_eq hw (by omega), e1, e2]
  · have e1 : (row.length - 1 + row.length - 1) % row.length = row.length - 2 := by
      have h : row.length - 1 + row.length - 1 = row.length + (row.length - 2) := by
        omega
      rw [h, Nat.add_mod_left]
      exact Nat.mod_eq_of_lt (by omega)
    have e2 : (row.length - 1 + 1) % row.length = 0 := by
      have h : row.length - 1 + 1 = row.length := by omega
      rw [h, Nat.mod_self]
    rw [neighborConfig_eq hw (by omega), e1, e2]

/-- Witness for C2 on the 5-wide row `[2, 3, 5, 7, 11]`: configuration of
column 0 is `[11, 2, 3]` and of column 4 is `[7, 11, 2]`. -/
theorem claim_C2_witness :
    neighborConfig [2, 3, 5, 7, 11] 0 = [11, 2, 3] ∧
    neighborConfig [2, 3, 5, 7, 11] 4 = [7, 11, 2] :=
  claim_C2_ring_wraparound (by decide)

/-- C3: for every rule number below 256, the derived rule table has exactly 8
entries, all 0 or 1, and equals the big-endian 8-bit expansion of the rule
number. -/
theorem claim_C3_rules_big_endian {r : Nat} (h : r < 256) :
    (RULES r).length = 8 ∧ (∀ x ∈ RULES r, x = 0 ∨ x = 1) ∧
    RULES r = bigEndianBits8 r :=
  RULES_facts r h

/-- Witness for C3 at rule 170 (whose expansion is `[1, 0, 1, 0, 1, 0, 1, 0]`). -/
theorem claim_C3_witness :
    (RULES 170).length = 8 ∧ (∀ x ∈ RULES 170, x = 0 ∨ x = 1) ∧
    RULES 170 = bigEndianBits8 170 :=
  claim_C3_rules_big_endian (by decide)

/-- C4 counterexample: under rule 1 the all-dead row `[0, 0, 0]` produces the
all-live row `[1, 1, 1]`; the cell `(1, 0)` is live while the cell directly
above it is dead, so no vertical line is drawn for that live cell — the
"always true at this point" part of the claim is false. -/
theorem claim_C4_counterexample :
    genGrid (RULES 1) [0, 0, 0] 2 = .ok [[0, 0, 0], [1, 1, 1]] ∧
    (([[0, 0, 0], [1, 1, 1]] : List (List Nat)).getD 1 []).getD 0 0 = 1 ∧
    (([[0, 0, 0], [1, 1, 1]] : List (List Nat)).getD 0 []).getD 0 0 = 0 ∧
    drawsVerticalLine [[0, 0, 0], [1, 1, 1]] 0 0 = false :=
  ⟨rfl, rfl, rfl, rfl⟩

/-- C4 as amended: in the line-drawing pass over a binary grid, the vertical
line from `(i, j)` to `(i + 1, j)` is drawn iff the cell `(i + 1, j)` is live
and the cell directly above it, `grid[i][j]`, is also live; that condition
need not hold for every live cell. -/
theorem claim_C4_vertical_line_iff {grid : List (List Nat)}
    (hb : ∀ q ∈ grid, ∀ x ∈ q, x = 0 ∨ x = 1) (i j : Nat) :
    drawsVerticalLine grid i j = true ↔
      ((grid.getD (i + 1) []).getD j 0 = 1 ∧ (grid.getD i []).getD j 0 = 1) := by
  have h1 := getD_zero_or_one (row_getD_binary hb (i + 1)) j
  have h2 := getD_zero_or_one (row_getD_binary hb i) j
  rw [drawsVerticalLine]
  rcases h1 with e1 | e1 <;> rcases h2 with e2 | e2 <;> rw [e1, e2] <;> simp

/-- Witness for the amended C4 on the grid `[[1, 1], [1, 0]]` at `(0, 0)`. -/
theorem claim_C4_witness :
    drawsVerticalLine [[1, 1], [1, 0]] 0 0 = true ↔
      ((([[1, 1], [1, 0]] : List (List Nat)).getD 1 []).getD 0 0 = 1 ∧
       (([[1, 1], [1, 0]] : List (List Nat)).getD 0 []).getD 0 0 = 1) :=
  claim_C4_vertical_line_iff (by decide) 0 0

/-- C5: on a rectangular binary grid with at least two rows, the marker pass
draws a filled circle at `(i, j)` iff the cell is live and the number of live
cells in the clamped window of the adjacent row(s) — row `i+1` only when
`i = 0`, row `i-1` only when `i` is the last row, the sum of both otherwise —
equals exactly 1. -/
theorem claim_C5_marker_iff {grid : List (List Nat)} {i j : Nat}
    (hb : ∀ q ∈ grid, ∀ x ∈ q, x = 0 ∨ x = 1)
    (hrect : ∀ q ∈ grid, q.length = (grid.getD 0 []).length)
    (hh : 2 ≤ grid.length) (hi : i < grid.length) :
    markerAt grid i j = true ↔
      ((grid.getD i []).getD j 0 = 1 ∧ adjacentLiveCount grid i j = 1) :=
  markerAt_iff hb hrect hh hi

/-- Witness for C5 on the grid `[[1, 0], [0, 1]]` at the corner cell `(0, 0)`:
live with exactly one live cell in its window of row 1, hence marked. -/
theorem claim_C5_witness :
    markerAt [[1, 0], [0, 1]] 0 0 = true ↔
      ((([[1, 0], [0, 1]] : List (List Nat)).getD 0 []).getD 0 0 = 1 ∧
       adjacentLiveCount [[1, 0], [0, 1]] 0 0 = 1) :=
  claim_C5_marker_iff (by decide) (by decide) (by decide) (by decide)

/-- C6: with an 8-entry rule table, `transition` succeeds on each of the 8
valid triples and fails with `InvalidConfiguration` naming the offending
input on every other configuration. -/
theorem claim_C6_invalid_config {config rules : List Nat} (hr : rules.length = 8) :
    (config ∈ validConfigs → ∃ v, transition config rules = .ok v) ∧
    (config ∉ validConfigs →
      transition config rules = .error (.invalidConfiguration config)) := by
  constructor
  · intro h
    simp only [validConfigs, List.mem_cons, List.not_mem_nil, or_false] at h
    rcases h with rfl | rfl | rfl | rfl | rfl | rfl | rfl | rfl <;>
      exact ⟨_, transition_eq_getD hr (by decide) (by decide) (by decide)⟩
  · intro h
    simp only [validConfigs, List.mem_cons, List.not_mem_nil, or_false, not_or] at h
    obtain ⟨h1, h2, h3, h4, h5, h6, h7, h8⟩ := h
    simp [transition, hr, h1, h2, h3, h4, h5, h6, h7, h8]

/-- Witness for C6: the invalid triple `(1, 1, 2)` yields the
`InvalidConfiguration` failure carrying that triple. -/
theorem claim_C6_witness :
    transition [1, 1, 2] [0, 0, 0, 0, 0, 0, 0, 1]
      = .error (.invalidConfiguration [1, 1, 2]) :=
  (@claim_C6_invalid_config [1, 1, 2] [0, 0, 0, 0, 0, 0, 0, 1] rfl).2 (by decide)

/-- C7: for every rule number below 256 and every binary starting row of width
at least 2 (the program's fixed width is 100), every neighbor configuration
built from any row of the generated grid is a length-3 binary list, and the
whole generation sweep succeeds — the error branch is unreachable. -/
theorem claim_C7_generation_never_fails {r : Nat} (hr : r < 256)
    {row0 : List Nat} (hb : ∀ x ∈ row0, x = 0 ∨ x = 1) (hw : 2 ≤ row0.length)
    (height : Nat) :
    ∃ g, genGrid (RULES r) row0 height = .ok g ∧
      ∀ row ∈ g, ∀ j < row.length,
        (neighborConfig row j).length = 3 ∧
        ∀ x ∈ neighborConfig row j, x = 0 ∨ x = 1 := by
  obtain ⟨h8, hrb, -⟩ := RULES_facts r hr
  obtain ⟨g, hg, -, -, hq, -⟩ := genGrid_spec h8 hrb hb hw height
  refine ⟨g, hg, ?_⟩
  intro row hrow j hj
  obtain ⟨hrb2, hrl⟩ := hq row hrow
  have hw2 : 2 ≤ row.length := by rw [hrl]; exact hw
  rw [neighborConfig_eq hw2 hj]
  refine ⟨rfl, ?_⟩
  intro x hx
  simp only [List.mem_cons, List.not_mem_nil, or_false] at hx
  rcases hx with rfl | rfl | rfl <;> exact getD_zero_or_one hrb2 _

/-- Witness for C7: rule 30 on the starting row `[1, 0, 0, 0, 0]` for 4
generations. -/
theorem claim_C7_witness :
    ∃ g, genGrid (RULES 30) [1, 0, 0, 0, 0] 4 = .ok g ∧
      ∀ row ∈ g, ∀ j < row.length,
        (neighborConfig row j).length = 3 ∧
        ∀ x ∈ neighborConfig row j, x = 0 ∨ x = 1 :=
  claim_C7_generation_never_fails (by decide) (by decide) (by decide) 4

/-- C8: generation invariants — the rule table has 8 binary entries, the
generated grid's cells are all 0 or 1, row 0 is preserved, and each row `i+1`
is determined by row `i` and the table alone, cell by cell, via `transition`
on the neighbor configuration of row `i` (no dependence on earlier rows or on
row `i+1` itself). -/
theorem claim_C8_invariants {r : Nat} (hr : r < 256) {row0 : List Nat}
    (hb : ∀ x ∈ row0, x = 0 ∨ x = 1) (hw : 2 ≤ row0.length) (height : Nat) :
    (RULES r).length = 8 ∧ (∀ x ∈ RULES r, x = 0 ∨ x = 1) ∧
    ∃ g, genGrid (RULES r) row0 height = .ok g ∧
      g.getD 0 [] = row0 ∧
      (∀ q ∈ g, ∀ x ∈ q, x = 0 ∨ x = 1) ∧
      (∀ i, i + 1 < g.length →
        nextRow (RULES r) (g.getD i []) = .ok (g.getD (i + 1) [])) ∧
      (∀ i j, i + 1 < g.length → j < row0.length →
        transition (neighborConfig (g.getD i []) j) (RULES r)
          = .ok ((g.getD (i + 1) []).getD j 0)) := by
  obtain ⟨h8, hrb, -⟩ := RULES_facts r hr
  obtain ⟨g, hg, hglen, hg0, hq, hchain⟩ := genGrid_spec h8 hrb hb hw height
  refine ⟨h8, hrb, g, hg, hg0, fun q hq2 => (hq q hq2).1, hchain, ?_⟩
  intro i j hi hj
  have hrowmem : g.getD i [] ∈ g := getD_mem (by omega) []
  obtain ⟨hrbin, hrlen⟩ := hq _ hrowmem
  have hnr2 : nextRow (RULES r) (g.getD i [])
      = .ok (nextRowVals (RULES r) (g.getD i [])) :=
    nextRow_ok h8 hrbin (by rw [hrlen]; exact hw)
  have heq : g.getD (i + 1) [] = nextRowVals (RULES r) (g.getD i []) :=
    Except.ok.inj ((hchain i hi).symm.trans hnr2)
  rw [heq, nextRowVals_getD (by rw [hrlen]; exact hj)]
  exact transition_neighborConfig_ok h8 hrbin (by rw [hrlen]; exact hw)
    (by rw [hrlen]; exact hj)

/-- Witness for C8: rule 90 on the starting row `[1, 0]` for 3 generations. -/
theorem claim_C8_witness :
    (RULES 90).length = 8 ∧ (∀ x ∈ RULES 90, x = 0 ∨ x = 1) ∧
    ∃ g, genGrid (RULES 90) [1, 0] 3 = .ok g ∧
      g.getD 0 [] = [1, 0] ∧
      (∀ q ∈ g, ∀ x ∈ q, x = 0 ∨ x = 1) ∧
      (∀ i, i + 1 < g.length →
        nextRow (RULES 90) (g.getD i []) = .ok (g.getD (i + 1) [])) ∧
      (∀ i j, i + 1 < g.length → j < ([1, 0] : List Nat).length →
        transition (neighborConfig (g.getD i []) j) (RULES 90)
          = .ok ((g.getD (i + 1) []).getD j 0)) :=
  claim_C8_invariants (by decide) (by decide) (by decide) 3

/-- C9: with the table derived from rule 170 (which is `[1,0,1,0,1,0,1,0]`),
one generation step maps every binary row of width at least 2 to its left
shift with wraparound: `next[j] = prev[(j + 1) % width]`. -/
theorem claim_C9_rule170_shift {row : List Nat}
    (hb : ∀ x ∈ row, x = 0 ∨ x = 1) (hw : 2 ≤ row.length) :
    RULES 170 = [1, 0, 1, 0, 1, 0, 1, 0] ∧
    nextRow (RULES 170) row
      = .ok ((List.range row.length).map
          (fun j => row.getD ((j + 1) % row.length) 0)) := by
  refine ⟨rfl, ?_⟩
  rw [nextRow]
  apply mapTransitions_ok_map
  intro j hj
  have hjlt := List.mem_range.mp hj
  rw [neighborConfig_eq hw hjlt]
  exact transition_rule170 (getD_zero_or_one hb _) (getD_zero_or_one hb _)
    (getD_zero_or_one hb _)

/-- Witness for C9: the row `[1, 1, 0, 0]` steps to its left shift
`[1, 0, 0, 1]` under rule 170. -/
theorem claim_C9_witness :
    RULES 170 = [1, 0, 1, 0, 1, 0, 1, 0] ∧
    nextRow (RULES 170) [1, 1, 0, 0] = .ok [1, 0, 0, 1] :=
  claim_C9_rule170_shift (by decide) (by decide)

/-- C10: with a rule table whose length is not 8, `transition` fails the
assertion for every configuration whatsoever, before any configuration
matching — it neither reports `InvalidConfiguration` nor returns a value. -/
theorem claim_C10_assert_rules_length {config rules : List Nat}
    (h : rules.length ≠ 8) :
    transition config rules = .error .assertionFailed := by
  rw [transition, if_neg h]

/-- Witness for C10: a 2-entry table fails the assertion even on the valid
triple `(1, 1, 1)`. -/
theorem claim_C10_witness :
    transition [1, 1, 1] [0, 1] = .error .assertionFailed :=
  claim_C10_assert_rules_length (by decide)

end Elcellomata
